import Mathlib

/-!
Shallow embedding of the keychain smart contract (src/contract/src/lib.rs).

The contract stores, per signer account, a map from resource names to
generated credentials.  `generate_new_password` checks (through the public
`get_password`) whether a secret already exists for the signer and resource;
if not it draws 12 characters from a fixed 91-character universe, using the
host clock (microseconds since the epoch) as entropy, and stores a fresh
record replacing the account's whole sub-map.  `get_password` returns the
stored secret or the empty string.

Modelling decisions:
- The two-level `HashMap` becomes an association list with `mapLookup` /
  `mapInsert` (insert replaces the binding of an existing key, as
  `HashMap::insert` does).
- The ambient signer identity (`env::signer_account_id()`) becomes an
  explicit `account_id` argument.
- Each loop iteration calls `SystemTime::now().duration_since(UNIX_EPOCH)`
  once; this is modelled by an entropy stream `ent : Nat → Option Nat`
  giving, per draw, the duration in microseconds (`none` models an `Err`
  from `duration_since`, which the code maps to the zero duration via
  `unwrap_or_default`).  The `as usize` cast truncates modulo 2^64.
- The `unwrap` on `chars().nth(..)` is modelled by `Option`: a failing
  `unwrap` (a Rust panic, which aborts the invocation) is `none`.
- `env::log` calls have no observable effect on the store and are omitted.
-/

def LOWER_CASE_LETTERS : String := "abcdefghijklmnopqrstuvwxyz"

def UPPER_CASE_LETTERS : String := "ABCDEFGHIJKLMNOPQRSTUVWXYZ"

def NUMBERS : String := "0123456789"

def SPECIAL_CHARS : String := "~!@#$%^&*()_-+=[]\x7b\x7d/\\|?,.<>\x27\""

/-- The `Key` struct: an owner label and the stored password. -/
structure Key where
  identifier : String
  enc_password : String
deriving DecidableEq, Repr

/-- The `Keychain` struct: `account → (resource → Key)`, as an association
list mirroring `HashMap<String, HashMap<String, Key>>`. -/
structure Keychain where
  keys : List (String × List (String × Key))
deriving DecidableEq, Repr

/-- Lookup in an association list, as `HashMap::get`. -/
def mapLookup {α : Type} (k : String) : List (String × α) → Option α
  | [] => none
  | (k2, v) :: rest => if k = k2 then some v else mapLookup k rest

/-- Insert in an association list, as `HashMap::insert`: replaces the
binding of an existing key, otherwise appends. -/
def mapInsert {α : Type} (k : String) (v : α) : List (String × α) → List (String × α)
  | [] => [(k, v)]
  | (k2, v2) :: rest => if k = k2 then (k, v) :: rest else (k2, v2) :: mapInsert k v rest

/-- `Keychain::get_password`: look the account up, then the resource;
return the stored password, defaulting to the empty string on either miss. -/
def Keychain.get_password (self : Keychain) (account_id : String) (resource : String) : String :=
  match mapLookup account_id self.keys with
  | some record =>
    match mapLookup resource record with
    | some key => key.enc_password
    | none => ""
  | none => ""

/-- `Keychain::generate_random_number`: the clock reading in microseconds
(`unwrap_or_default` turns an `Err` from `duration_since` into the zero
duration), cast `as usize` (truncation modulo 2^64), reduced modulo the
bound.  Despite the parameter name, the result is strictly below the bound. -/
def Keychain.generate_random_number (now_duration : Option Nat)
    (less_than_or_equal_to : Nat) : Nat :=
  let microseconds : Nat := (Option.getD now_duration 0) % (2 ^ 64)
  microseconds % less_than_or_equal_to

/-- The character universe built in `generate_new_password` by successive
`push_str` calls: lowercase, uppercase, digits, specials, in this order. -/
def selectedSet : String :=
  LOWER_CASE_LETTERS ++ UPPER_CASE_LETTERS ++ NUMBERS ++ SPECIAL_CHARS

/-- The generation loop `for _n in 0..password_len`: at iteration `m` it
draws `selected_set.chars().nth(generate_random_number(selected_set_len))`
with the clock reading `ent m`, and pushes the character.  `none` models a
panic of the `unwrap` (the `nth` returned `None`). -/
def password_loop (selected_set : String) (selected_set_len : Nat)
    (ent : Nat → Option Nat) : Nat → Option String
  | 0 => some ""
  | Nat.succ m =>
    match password_loop selected_set selected_set_len ent m with
    | none => none
    | some password =>
      match selected_set.data.get?
          (Keychain.generate_random_number (ent m) selected_set_len) with
      | none => none
      | some c => some (password.push c)

/-- `Keychain::generate_new_password`: if `get_password` for the signer and
resource is empty, build the universe, draw 12 characters, and insert a
fresh one-entry sub-map for the account; otherwise leave the store alone.
`none` models the invocation aborting through a panic of the `unwrap`. -/
def Keychain.generate_new_password (self : Keychain) (ent : Nat → Option Nat)
    (account_id : String) (resource : String) (identifier : String) : Option Keychain :=
  if (self.get_password account_id resource).isEmpty then
    let password_len : Nat := 12
    let selected_set : String := selectedSet
    let selected_set_len : Nat := selected_set.utf8ByteSize
    match password_loop selected_set selected_set_len ent password_len with
    | none => none
    | some password =>
      let record : List (String × Key) :=
        mapInsert resource (Key.mk identifier password) []
      some (Keychain.mk (mapInsert account_id record self.keys))
  else
    some self

/-! ### Helper lemmas about the association-list maps -/

theorem mapLookup_insert_self {α : Type} (k : String) (v : α)
    (l : List (String × α)) : mapLookup k (mapInsert k v l) = some v := by
  induction l with
  | nil => simp [mapInsert, mapLookup]
  | cons head rest ih =>
    obtain ⟨k2, v2⟩ := head
    by_cases h : k = k2
    · simp [mapInsert, mapLookup, h]
    · simp [mapInsert, mapLookup, h, ih]

theorem mapLookup_insert_ne {α : Type} (k k2 : String) (v : α)
    (l : List (String × α)) (h : k2 ≠ k) :
    mapLookup k2 (mapInsert k v l) = mapLookup k2 l := by
  induction l with
  | nil => simp [mapInsert, mapLookup, h]
  | cons head rest ih =>
    obtain ⟨k3, v3⟩ := head
    by_cases h2 : k = k3
    · subst h2
      simp [mapInsert, mapLookup, h]
    · simp [mapInsert, mapLookup, h2, ih]

/-! ### Helper lemmas about strings and list indexing -/

theorem data_push_eq (s : String) (c : Char) : (s.push c).data = s.data ++ [c] := by
  cases s
  rfl

theorem length_push_eq (s : String) (c : Char) : (s.push c).length = s.length + 1 := by
  cases s
  simp [String.push, String.length]

theorem ne_empty_of_length_pos (s : String) (h : 0 < s.length) : s ≠ "" := by
  intro hE
  rw [hE] at h
  simp [String.length] at h

theorem get?_some_of_lt {α : Type} :
    ∀ (l : List α) (n : Nat), n < l.length → (l.get? n).isSome = true
  | [], n, h => by simp at h
  | a :: l, 0, h => by simp [List.get?]
  | a :: l, Nat.succ n, h => by
    simp only [List.get?]
    exact get?_some_of_lt l n (Nat.lt_of_succ_lt_succ h)

theorem mem_of_get?_some {α : Type} :
    ∀ (l : List α) (n : Nat) (a : α), l.get? n = some a → a ∈ l
  | [], n, a, h => by simp [List.get?] at h
  | b :: l, 0, a, h => by
    simp only [List.get?, Option.some.injEq] at h
    rw [← h]
    exact List.mem_cons_self b l
  | b :: l, Nat.succ n, a, h => by
    simp only [List.get?] at h
    exact List.mem_cons_of_mem b (mem_of_get?_some l n a h)

/-! ### Helper lemmas about the generation loop -/

theorem password_loop_length (s : String) (len : Nat) (ent : Nat → Option Nat) :
    ∀ (n : Nat) (p : String), password_loop s len ent n = some p → p.length = n := by
  intro n
  induction n with
  | zero =>
    intro p hp
    simp only [password_loop, Option.some.injEq] at hp
    rw [← hp]
    rfl
  | succ m ih =>
    intro p hp
    simp only [password_loop] at hp
    cases h1 : password_loop s len ent m with
    | none => rw [h1] at hp; simp at hp
    | some q =>
      rw [h1] at hp
      cases h2 : s.data.get? (Keychain.generate_random_number (ent m) len) with
      | none => rw [h2] at hp; simp at hp
      | some c =>
        rw [h2] at hp
        simp only [Option.some.injEq] at hp
        rw [← hp, length_push_eq, ih q h1]

theorem password_loop_mem (s : String) (len : Nat) (ent : Nat → Option Nat) :
    ∀ (n : Nat) (p : String), password_loop s len ent n = some p →
      ∀ c ∈ p.data, c ∈ s.data := by
  intro n
  induction n with
  | zero =>
    intro p hp
    simp only [password_loop, Option.some.injEq] at hp
    rw [← hp]
    intro c hc
    simp [String.data] at hc
  | succ m ih =>
    intro p hp
    simp only [password_loop] at hp
    cases h1 : password_loop s len ent m with
    | none => rw [h1] at hp; simp at hp
    | some q =>
      rw [h1] at hp
      cases h2 : s.data.get? (Keychain.generate_random_number (ent m) len) with
      | none => rw [h2] at hp; simp at hp
      | some c2 =>
        rw [h2] at hp
        simp only [Option.some.injEq] at hp
        rw [← hp]
        intro c hc
        rw [data_push_eq] at hc
        rcases List.mem_append.mp hc with hc1 | hc1
        · exact ih q h1 c hc1
        · rw [List.mem_singleton.mp hc1]
          exact mem_of_get?_some s.data _ c2 h2

theorem password_loop_isSome (s : String) (len : Nat) (ent : Nat → Option Nat)
    (h : ∀ m, Keychain.generate_random_number (ent m) len < s.data.length) :
    ∀ n, (password_loop s len ent n).isSome = true := by
  intro n
  induction n with
  | zero => simp [password_loop]
  | succ m ih =>
    simp only [password_loop]
    cases h1 : password_loop s len ent m with
    | none => rw [h1] at ih; simp at ih
    | some q =>
      cases h2 : s.data.get? (Keychain.generate_random_number (ent m) len) with
      | none =>
        have hs := get?_some_of_lt s.data _ (h m)
        rw [h2] at hs
        simp at hs
      | some c => simp

/-! ### Helper lemmas about `generate_new_password` and `get_password` -/

theorem gen_noop (kc : Keychain) (ent : Nat → Option Nat) (A R id : String)
    (h : kc.get_password A R ≠ "") :
    kc.generate_new_password ent A R id = some kc := by
  have hb : (kc.get_password A R).isEmpty = false := by
    cases hE : (kc.get_password A R).isEmpty
    · rfl
    · exact absurd ((String.isEmpty_iff _).mp hE) h
  simp [Keychain.generate_new_password, hb]

theorem gen_synth (kc : Keychain) (ent : Nat → Option Nat) (A R id p : String)
    (h : kc.get_password A R = "")
    (hp : password_loop selectedSet selectedSet.utf8ByteSize ent 12 = some p) :
    kc.generate_new_password ent A R id
      = some (Keychain.mk (mapInsert A [(R, Key.mk id p)] kc.keys)) := by
  have hb : (kc.get_password A R).isEmpty = true := (String.isEmpty_iff _).mpr h
  simp [Keychain.generate_new_password, hb, hp, mapInsert]

theorem gen_cases (kc kc2 : Keychain) (ent : Nat → Option Nat) (A R id : String)
    (h : kc.generate_new_password ent A R id = some kc2) :
    (kc.get_password A R ≠ "" ∧ kc2 = kc) ∨
    (kc.get_password A R = "" ∧
      ∃ p, password_loop selectedSet selectedSet.utf8ByteSize ent 12 = some p ∧
        kc2 = Keychain.mk (mapInsert A [(R, Key.mk id p)] kc.keys)) := by
  by_cases hE : kc.get_password A R = ""
  · right
    refine ⟨hE, ?_⟩
    have hb : (kc.get_password A R).isEmpty = true := (String.isEmpty_iff _).mpr hE
    simp only [Keychain.generate_new_password, hb, if_true] at h
    cases hp : password_loop selectedSet selectedSet.utf8ByteSize ent 12 with
    | none => rw [hp] at h; simp at h
    | some p =>
      rw [hp] at h
      simp only [mapInsert, Option.some.injEq] at h
      exact ⟨p, rfl, h.symm⟩
  · left
    have hb : (kc.get_password A R).isEmpty = false := by
      cases hE2 : (kc.get_password A R).isEmpty
      · rfl
      · exact absurd ((String.isEmpty_iff _).mp hE2) hE
    simp only [Keychain.generate_new_password, hb, Bool.false_eq_true, if_false,
      Option.some.injEq] at h
    exact ⟨hE, h.symm⟩

theorem get_password_insert_self (keysl : List (String × List (String × Key)))
    (A R : String) (key : Key) :
    Keychain.get_password (Keychain.mk (mapInsert A [(R, key)] keysl)) A R
      = key.enc_password := by
  simp [Keychain.get_password, mapLookup_insert_self, mapLookup]

theorem get_password_insert_other_resource (keysl : List (String × List (String × Key)))
    (A R R2 : String) (key : Key) (h : R2 ≠ R) :
    Keychain.get_password (Keychain.mk (mapInsert A [(R, key)] keysl)) A R2 = "" := by
  simp [Keychain.get_password, mapLookup_insert_self, mapLookup, h]

theorem get_password_insert_other_account (keysl : List (String × List (String × Key)))
    (A B R2 : String) (rec2 : List (String × Key)) (h : B ≠ A) :
    Keychain.get_password (Keychain.mk (mapInsert A rec2 keysl)) B R2
      = Keychain.get_password (Keychain.mk keysl) B R2 := by
  simp [Keychain.get_password, mapLookup_insert_ne A B rec2 keysl h]

theorem get_password_after_generate (kc kc2 : Keychain) (ent : Nat → Option Nat)
    (A R id : String) (h : kc.generate_new_password ent A R id = some kc2) :
    kc2.get_password A R ≠ "" := by
  rcases gen_cases kc kc2 ent A R id h with ⟨hne, rfl⟩ | ⟨hE, p, hp, rfl⟩
  · exact hne
  · rw [get_password_insert_self]
    refine ne_empty_of_length_pos _ ?_
    have : (Key.mk id p).enc_password.length = 12 :=
      password_loop_length selectedSet selectedSet.utf8ByteSize ent 12 p hp
    rw [this]
    decide

/-! ### Concrete fixtures used by the witnesses -/

/-- The empty store (`Keychain::default()`). -/
def kcEmpty : Keychain := Keychain.mk []

/-- Entropy stream: every clock reading is 0 microseconds. -/
def entZero : Nat → Option Nat := fun _ => some 0

/-- Entropy stream: every clock reading is 1 microsecond. -/
def entOne : Nat → Option Nat := fun _ => some 1

/-- Entropy stream where `duration_since` fails on every draw. -/
def entFault : Nat → Option Nat := fun _ => none

/-- The credential generated with all-zero entropy (index 0 is 'a'). -/
def keyBob : Key := Key.mk ("bob@email.com") ("aaaaaaaaaaaa")

/-- The store after one generation for signer bob on resource email with
all-zero entropy. -/
def kcBob : Keychain := Keychain.mk [(("bob_near"), [(("email"), keyBob)])]

/-- The store after a further generation for signer bob on resource vault
with all-one entropy (index 1 is 'b'): the sub-map got replaced. -/
def kcBob2 : Keychain :=
  Keychain.mk [(("bob_near"), [(("vault"), Key.mk ("alice") ("bbbbbbbbbbbb"))])]

/-! ### Claim theorems -/

/-- C1: generation is idempotent.  After any successful `generate` call for
(A, R) a credential exists (the retrieved secret is non-empty), and a second
`generate` call for the same signer and resource, with any entropy and any
owner identifier, is a no-op: it returns the store unchanged, so the secret
retrievable via `get_password` after both calls equals the one after the
first call alone and the stored credential is untouched. -/
theorem generate_idempotent (kc kc1 : Keychain) (ent1 ent2 : Nat → Option Nat)
    (A R id1 id2 : String)
    (h1 : kc.generate_new_password ent1 A R id1 = some kc1) :
    kc1.get_password A R ≠ "" ∧
    kc1.generate_new_password ent2 A R id2 = some kc1 := by
  have hne := get_password_after_generate kc kc1 ent1 A R id1 h1
  exact ⟨hne, gen_noop kc1 ent2 A R id2 hne⟩

theorem generate_idempotent_witness :
    Keychain.get_password kcBob ("bob_near") ("email") ≠ "" ∧
    Keychain.generate_new_password kcBob entOne ("bob_near") ("email") ("other") = some kcBob :=
  generate_idempotent kcEmpty kcBob entZero entOne ("bob_near") ("email")
    ("bob@email.com") ("other") (by decide)

/-- C2: single-resource-per-account overwrite.  Generating for R1 and then
for a distinct R2 under the same account replaces the account's entire
resource sub-map with one containing only R2: afterwards the account's
sub-map is exactly the one-entry map for R2, `get_password` on R2 returns
the newly generated secret, and `get_password` on R1 returns the empty
string. -/
theorem generate_overwrites_submap (kc kc1 kc2 : Keychain)
    (ent1 ent2 : Nat → Option Nat) (A R1 R2 id1 id2 : String)
    (hne : R1 ≠ R2)
    (h0 : kc.get_password A R1 = "")
    (h1 : kc.generate_new_password ent1 A R1 id1 = some kc1)
    (h2 : kc1.generate_new_password ent2 A R2 id2 = some kc2) :
    kc2.get_password A R1 = "" ∧
    password_loop selectedSet selectedSet.utf8ByteSize ent2 12
      = some (kc2.get_password A R2) ∧
    mapLookup A kc2.keys = some [(R2, Key.mk id2 (kc2.get_password A R2))] := by
  rcases gen_cases kc kc1 ent1 A R1 id1 h1 with ⟨hne1, rfl⟩ | ⟨hE1, p1, hp1, rfl⟩
  · exact absurd h0 hne1
  · have hgetR2 :
        Keychain.get_password
          (Keychain.mk (mapInsert A [(R1, Key.mk id1 p1)] kc.keys)) A R2 = "" :=
      get_password_insert_other_resource kc.keys A R1 R2 (Key.mk id1 p1) (Ne.symm hne)
    rcases gen_cases _ kc2 ent2 A R2 id2 h2 with ⟨hne2, rfl⟩ | ⟨hE2, p2, hp2, rfl⟩
    · exact absurd hgetR2 hne2
    · have hself := get_password_insert_self
        (mapInsert A [(R1, Key.mk id1 p1)] kc.keys) A R2 (Key.mk id2 p2)
      refine ⟨?_, ?_, ?_⟩
      · exact get_password_insert_other_resource _ A R2 R1 (Key.mk id2 p2) hne
      · rw [hself]
        exact hp2
      · rw [hself]
        exact mapLookup_insert_self A [(R2, Key.mk id2 p2)] _

theorem generate_overwrites_submap_witness :
    Keychain.get_password kcBob2 ("bob_near") ("email") = "" ∧
    mapLookup ("bob_near") kcBob2.keys
      = some [(("vault"), Key.mk ("alice") (Keychain.get_password kcBob2 ("bob_near") ("vault")))] :=
  ⟨(generate_overwrites_submap kcEmpty kcBob kcBob2 entZero entOne ("bob_near")
      ("email") ("vault") ("bob@email.com") ("alice")
      (by decide) (by decide) (by decide) (by decide)).1,
   (generate_overwrites_submap kcEmpty kcBob kcBob2 entZero entOne ("bob_near")
      ("email") ("vault") ("bob@email.com") ("alice")
      (by decide) (by decide) (by decide) (by decide)).2.2⟩

/-- C3: length invariant.  Whenever a `generate` call actually synthesizes a
new secret (the pre-state had no secret for (A, R)) and completes, the
stored secret retrieved afterwards has length exactly 12. -/
theorem generated_password_length (kc kc1 : Keychain) (ent : Nat → Option Nat)
    (A R id : String)
    (h0 : kc.get_password A R = "")
    (h1 : kc.generate_new_password ent A R id = some kc1) :
    (kc1.get_password A R).length = 12 := by
  rcases gen_cases kc kc1 ent A R id h1 with ⟨hne, rfl⟩ | ⟨hE, p, hp, rfl⟩
  · exact absurd h0 hne
  · rw [get_password_insert_self]
    exact password_loop_length selectedSet selectedSet.utf8ByteSize ent 12 p hp

theorem generated_password_length_witness :
    (Keychain.get_password kcBob ("bob_near") ("email")).length = 12 :=
  generated_password_length kcEmpty kcBob entZero ("bob_near") ("email")
    ("bob@email.com") (by decide) (by decide)

/-- C4: character-universe containment.  Every character of a newly
synthesized secret is a member of the fixed ordered universe, the
concatenation of the lowercase, uppercase, digit and special-character
classes. -/
theorem generated_password_in_universe (kc kc1 : Keychain) (ent : Nat → Option Nat)
    (A R id : String)
    (h0 : kc.get_password A R = "")
    (h1 : kc.generate_new_password ent A R id = some kc1)
    (c : Char) (hc : c ∈ (kc1.get_password A R).data) :
    c ∈ (LOWER_CASE_LETTERS ++ UPPER_CASE_LETTERS ++ NUMBERS ++ SPECIAL_CHARS).data := by
  rcases gen_cases kc kc1 ent A R id h1 with ⟨hne, rfl⟩ | ⟨hE, p, hp, rfl⟩
  · exact absurd h0 hne
  · rw [get_password_insert_self] at hc
    exact password_loop_mem selectedSet selectedSet.utf8ByteSize ent 12 p hp c hc

theorem generated_password_in_universe_witness :
    ('a' : Char) ∈ (LOWER_CASE_LETTERS ++ UPPER_CASE_LETTERS ++ NUMBERS ++ SPECIAL_CHARS).data :=
  generated_password_in_universe kcEmpty kcBob entZero ("bob_near") ("email")
    ("bob@email.com") (by decide) (by decide) 'a' (by decide)

/-- C5: default-miss.  If the account is absent from the store, or the
resource is absent from the account's sub-map, `get_password` returns the
empty string; a miss is an ordinary result, not an error. -/
theorem get_password_default_miss (kc : Keychain) (A R : String)
    (h : mapLookup A kc.keys = none ∨
      ∃ rec2, mapLookup A kc.keys = some rec2 ∧ mapLookup R rec2 = none) :
    kc.get_password A R = "" := by
  rcases h with h | ⟨rec2, h1, h2⟩
  · simp [Keychain.get_password, h]
  · simp [Keychain.get_password, h1, h2]

theorem get_password_default_miss_witness :
    Keychain.get_password kcEmpty ("francis.near") ("") = "" :=
  get_password_default_miss kcEmpty ("francis.near") ("") (Or.inl (by decide))

/-- C6: draw index range.  For every positive bound n, the draw
`generate_random_number` yields a value in [0, n) for every clock reading,
and the reading 0 actually reaches index 0. -/
theorem generate_random_number_range (n : Nat) (h : 0 < n) :
    (∀ reading : Option Nat, Keychain.generate_random_number reading n < n) ∧
    Keychain.generate_random_number (some 0) n = 0 := by
  constructor
  · intro reading
    exact Nat.mod_lt _ h
  · simp [Keychain.generate_random_number]

theorem generate_random_number_range_witness :
    Keychain.generate_random_number (some 5) 91 < 91 ∧
    Keychain.generate_random_number (some 0) 91 = 0 :=
  ⟨(generate_random_number_range 91 (by decide)).1 (some 5),
   (generate_random_number_range 91 (by decide)).2⟩

/-- C7 counterexample: the claim "when entropy sourcing faults the
invocation aborts and no KeyStore mutation is committed" is false.  With
every clock reading failing (`duration_since` returns an error on all 12
draws), the call on the empty store still completes and commits a fresh
credential — the store after the call differs from the store before. -/
theorem entropy_fault_commits_mutation :
    Keychain.generate_new_password kcEmpty entFault ("bob_near") ("email") ("bob@email.com")
      = some kcBob ∧ kcBob ≠ kcEmpty := by decide

/-- C7 amended: an entropy fault does not abort the invocation.
`unwrap_or_default` replaces a failed clock reading by the zero duration, so
every faulted draw yields index 0 and the call commits a complete
12-character credential (the string of twelve times the universe's first
character) under the signer and resource; no partially-written credential
occurs, but the store is mutated rather than left unchanged. -/
theorem entropy_fault_no_abort (kc : Keychain) (A R id : String)
    (h : kc.get_password A R = "") :
    kc.generate_new_password entFault A R id
      = some (Keychain.mk (mapInsert A [(R, Key.mk id ("aaaaaaaaaaaa"))] kc.keys)) := by
  refine gen_synth kc entFault A R id ("aaaaaaaaaaaa") h ?_
  decide

theorem entropy_fault_no_abort_witness :
    Keychain.generate_new_password kcEmpty entFault ("alice_near") ("vault") ("alice")
      = some (Keychain.mk
          (mapInsert ("alice_near") [(("vault"), Key.mk ("alice") ("aaaaaaaaaaaa"))]
            kcEmpty.keys)) :=
  entropy_fault_no_abort kcEmpty ("alice_near") ("vault") ("alice") (by decide)

/-- C8: shared lookup semantics.  The idempotence check inside `generate`
is the public retrieval operation itself, with no divergent internal fast
path: on every store state, signer, resource, entropy and identifier, the
call is a no-op (returns the store unchanged) exactly when the public
`get_password` returns a non-empty secret, and takes the synthesis path
exactly when `get_password` returns the empty string. -/
theorem generate_noop_iff_get_nonempty (kc : Keychain) (ent : Nat → Option Nat)
    (A R id : String) :
    kc.generate_new_password ent A R id = some kc ↔ kc.get_password A R ≠ "" := by
  constructor
  · intro h
    rcases gen_cases kc kc ent A R id h with ⟨hne, _⟩ | ⟨hE, p, hp, hEq⟩
    · exact hne
    · exfalso
      have hself := get_password_insert_self kc.keys A R (Key.mk id p)
      rw [← hEq] at hself
      rw [hE] at hself
      have hlen : p.length = 12 :=
        password_loop_length selectedSet selectedSet.utf8ByteSize ent 12 p hp
      have hpn : p ≠ "" := ne_empty_of_length_pos p (by rw [hlen]; decide)
      exact hpn hself.symm
  · intro h
    exact gen_noop kc ent A R id h

/-- C9: cross-account frame property.  A completed `generate` call by
signer A mutates at most A's entry: for every other account B and every
resource, `get_password` returns the same value before and after the
call. -/
theorem generate_frame_other_accounts (kc kc2 : Keychain) (ent : Nat → Option Nat)
    (A R id B R2 : String) (hB : B ≠ A)
    (h : kc.generate_new_password ent A R id = some kc2) :
    kc2.get_password B R2 = kc.get_password B R2 := by
  rcases gen_cases kc kc2 ent A R id h with ⟨_, rfl⟩ | ⟨_, p, hp, rfl⟩
  · rfl
  · have hfr := get_password_insert_other_account kc.keys A B R2
      [(R, Key.mk id p)] hB
    rw [hfr]

theorem generate_frame_other_accounts_witness :
    Keychain.get_password kcBob ("alice_near") ("email")
      = Keychain.get_password kcEmpty ("alice_near") ("email") :=
  generate_frame_other_accounts kcEmpty kcBob entZero ("bob_near") ("email")
    ("bob@email.com") ("alice_near") ("email") (by decide) (by decide)

/-- C10: generation-loop panic safety.  The universe's byte length (the
bound passed to the draw) equals its character count, 91; every draw index
is strictly below that count, so `chars().nth(..)` always finds a character
and the `unwrap` never panics, and the modulo divisor is positive, so no
division by zero occurs; consequently `generate_new_password` always
completes (never aborts) on every store, entropy stream and input. -/
theorem generation_loop_panic_free (kc : Keychain) (ent : Nat → Option Nat)
    (A R id : String) :
    selectedSet.utf8ByteSize = 91 ∧
    selectedSet.data.length = 91 ∧
    (∀ m, Keychain.generate_random_number (ent m) selectedSet.utf8ByteSize
      < selectedSet.data.length) ∧
    (kc.generate_new_password ent A R id).isSome = true := by
  have h91 : selectedSet.utf8ByteSize = 91 := by decide
  have hlen : selectedSet.data.length = 91 := by decide
  have hdraw : ∀ m, Keychain.generate_random_number (ent m) selectedSet.utf8ByteSize
      < selectedSet.data.length := by
    intro m
    rw [h91, hlen]
    exact Nat.mod_lt _ (by decide)
  refine ⟨h91, hlen, hdraw, ?_⟩
  by_cases hE : kc.get_password A R = ""
  · have hloop := password_loop_isSome selectedSet selectedSet.utf8ByteSize ent hdraw 12
    obtain ⟨p, hp⟩ := Option.isSome_iff_exists.mp hloop
    rw [gen_synth kc ent A R id p hE hp]
    rfl
  · rw [gen_noop kc ent A R id hE]
    rfl
